import Mathlib

/-!
Shallow embedding of the viuer block printer (src/printer/block.rs, src/utils.rs)
and proofs about its cell policy, transparency handling, resizing, offsets and
flush discipline.
-/

namespace Viuer

/-- RGBA pixel data: four 8-bit channels (models image::Rgba<u8>). -/
structure Rgba where
  r : Nat
  g : Nat
  b : Nat
  a : Nat
  deriving DecidableEq, Repr

/-- Terminal color (models termcolor::Color as used by block.rs): either a
truecolor RGB triplet or a 256-palette index. -/
inductive Color where
  | Rgb (r g b : Nat)
  | Ansi256 (i : Nat)
  deriving DecidableEq, Repr

/-- A terminal cell's color pair (models termcolor::ColorSpec as used by
block.rs: only set_fg/set_bg are ever called). `none` encodes an unset half. -/
structure ColorSpec where
  fg : Option Color := none
  bg : Option Color := none
  deriving DecidableEq, Repr

/-- row_buffer building mode (models the Mode enum of block.rs). -/
inductive Mode where
  | top
  | bottom
  deriving DecidableEq, Repr

/-- One output operation written into the out_buffer (cursor moves via
crossterm execute!, color changes and glyph/newline writes via termcolor). -/
inductive Op where
  | moveTo (x y : Nat)
  | moveToPreviousLine (n : Nat)
  | moveRight (n : Nat)
  | setColor (c : ColorSpec)
  | reset
  | write (s : String)
  | newline
  deriving DecidableEq, Repr

/-- The kinds of I/O errors distinguished by print_buffer (models
std::io::ErrorKind restricted to what the code inspects). -/
inductive IOErrorKind where
  | brokenPipe
  | notFound
  | permissionDenied
  | otherKind
  deriving DecidableEq, Repr

/-- An I/O error carried by the sink (models std::io::Error by its kind). -/
structure IOError where
  kind : IOErrorKind
  deriving DecidableEq, Repr

/-- Modelled from the spec: the error kinds of §7 (the crate's error module is
not among the sources at hand; block.rs constructs exactly these two). -/
inductive ViuError where
  | invalidConfiguration (msg : String)
  | ioError (e : IOError)
  deriving DecidableEq, Repr

/-- Modelled from the spec: the RenderConfig record of §6 (the crate's Config
type is declared outside the sources at hand); only the fields the block
printer reads are modelled. -/
structure Config where
  width : Option Nat
  height : Option Nat
  x : Nat
  y : Int
  absolute_offset : Bool
  transparent : Bool
  truecolor : Bool
  resize : Bool
  deriving DecidableEq, Repr

/-- An immutable RGBA pixel grid (models image::DynamicImage viewed through
GenericImageView: dimensions plus a pixel accessor, x before y). -/
structure Grid where
  width : Nat
  height : Nat
  pix : Nat → Nat → Rgba

def UPPER_HALF_BLOCK : String := "▀"

def LOWER_HALF_BLOCK : String := "▄"

def CHECKERBOARD_BACKGROUND_LIGHT : Nat × Nat × Nat := (153, 153, 153)

def CHECKERBOARD_BACKGROUND_DARK : Nat × Nat × Nat := (102, 102, 102)

/-- Absolute difference of two channel values. -/
def chanDist (x y : Nat) : Nat := (x - y) + (y - x)

/-- Squared distance between two RGB triplets. -/
def dist2 (p q : Nat × Nat × Nat) : Nat :=
  chanDist p.1 q.1 * chanDist p.1 q.1 +
    chanDist p.2.1 q.2.1 * chanDist p.2.1 q.2.1 +
    chanDist p.2.2 q.2.2 * chanDist p.2.2 q.2.2

/-- The channel value of xterm color-cube step i: 0, 95, 135, 175, 215, 255. -/
def ansiCubeLevel (i : Nat) : Nat := if i = 0 then 0 else 55 + 40 * i

/-- The nearest xterm color-cube step for a channel value. -/
def ansiCubeIndex (v : Nat) : Nat :=
  if v < 48 then 0 else if v < 115 then 1 else min 5 ((v - 35) / 40)

/-- The nearest xterm grayscale-ramp step (0..23) for a gray value. -/
def ansiGrayIndex (v : Nat) : Nat :=
  if v < 8 then 0 else min 23 ((v - 8) / 10)

/-- Models the external ansi_colours::ansi256_from_rgb dependency: a pure,
deterministic quantization of an RGB triplet to an xterm palette index in
16..255, choosing the nearer of the best color-cube entry and the best
grayscale-ramp entry.  No claim depends on the exact index values, only on
purity and on distinct indices for the two checkerboard grays. -/
def ansi256_from_rgb (rgb : Nat × Nat × Nat) : Nat :=
  let qr := ansiCubeIndex rgb.1
  let qg := ansiCubeIndex rgb.2.1
  let qb := ansiCubeIndex rgb.2.2
  let cube := (ansiCubeLevel qr, ansiCubeLevel qg, ansiCubeLevel qb)
  let gi := ansiGrayIndex ((rgb.1 + rgb.2.1 + rgb.2.2) / 3)
  let gv := 8 + 10 * gi
  if dist2 (gv, gv, gv) rgb ≤ dist2 cube rgb then 232 + gi
  else 16 + 36 * qr + 6 * qg + qb

/-- is_pixel_transparent from block.rs: alpha channel equal to zero. The pixel
carries its (x, y) position, which is ignored, as in the source. -/
def is_pixel_transparent (pixel : Nat × Nat × Rgba) : Bool :=
  pixel.2.2.a == 0

/-- get_transparency_color from block.rs: the checkerboard substitute color for
a transparent pixel, chosen by row/column parity. -/
def get_transparency_color (row col : Nat) (truecolor : Bool) : Color :=
  let rgb := if row % 2 = col % 2 then CHECKERBOARD_BACKGROUND_DARK
             else CHECKERBOARD_BACKGROUND_LIGHT
  if truecolor then Color.Rgb rgb.1 rgb.2.1 rgb.2.2
  else Color.Ansi256 (ansi256_from_rgb rgb)

/-- get_color_from_pixel from block.rs: resolve an (opaque) pixel's own RGB
triplet per the truecolor flag.  The position in the tuple is ignored, as in
the source. -/
def get_color_from_pixel (pixel : Nat × Nat × Rgba) (truecolor : Bool) : Color :=
  let data := pixel.2.2
  let rgb := (data.r, data.g, data.b)
  if truecolor then Color.Rgb rgb.1 rgb.2.1 rgb.2.2
  else Color.Ansi256 (ansi256_from_rgb rgb)

/-- The per-pixel color decision of BlockPrinter::print (block.rs lines 81-93):
transparent pixels yield no color when config.transparent is set, the
checkerboard color otherwise; opaque pixels use their own color. -/
def pixelColor (cfg : Config) (row col : Nat) (pixel : Nat × Nat × Rgba) : Option Color :=
  if is_pixel_transparent pixel then
    if cfg.transparent then none
    else some (get_transparency_color row col cfg.truecolor)
  else some (get_color_from_pixel pixel cfg.truecolor)

/-- fill_out_buffer from block.rs: translate a row of cell color pairs into
output operations.  Writes to the in-memory out_buffer cannot fail and are
modelled as the returned operation list; the source's clearing of row_buffer
is modelled at the call sites. -/
def fill_out_buffer : List ColorSpec → Bool → List Op
  | [], _ => [Op.reset, Op.newline]
  | c :: rest, is_last_row =>
    (if is_last_row then
      match c.bg with
      | some bg => [Op.setColor { fg := some bg, bg := none }, Op.write UPPER_HALF_BLOCK]
      | none => [Op.moveRight 1]
    else
      match c.fg, c.bg with
      | none, none => [Op.moveRight 1]
      | some bottom, none =>
        [Op.setColor { fg := some bottom, bg := none }, Op.write LOWER_HALF_BLOCK]
      | none, some top =>
        [Op.setColor { fg := some top, bg := none }, Op.write UPPER_HALF_BLOCK]
      | some _, some _ => [Op.setColor c, Op.write LOWER_HALF_BLOCK]) ++
      fill_out_buffer rest is_last_row

/-- print_buffer from block.rs: send the out_buffer to the sink.  `resp` is the
sink's response to this flush (`none` = success).  On success the chunk is
delivered and the buffer cleared; a broken pipe is swallowed as success with
nothing delivered and the buffer left as is; any other failure is returned as
an IO error.  Returns the delivered chunks and the remaining buffer. -/
def print_buffer (resp : Option IOError) (chunks : List (List Op)) (ob : List Op) :
    Except ViuError (List (List Op) × List Op) :=
  match resp with
  | none => Except.ok (chunks ++ [ob], [])
  | some e =>
    match e.kind with
    | IOErrorKind.brokenPipe => Except.ok (chunks, ob)
    | _ => Except.error (ViuError.ioError e)

/-- terminal_size from utils.rs: the constant fallback/test dimensions
DEFAULT_TERM_SIZE = (80, 24). -/
def terminal_size : Nat × Nat := (80, 24)

/-- Models the integer aspect-preserving dimension computation of the external
image crate used by the repository's thumbnail (validated against the four
resize tests committed in block.rs, e.g. 1000x800 into 80x46 gives 57x46); the
u32 overflow guards, unreachable at terminal sizes, are omitted. -/
def resize_dimensions (w h nw nh : Nat) (fill : Bool) : Nat × Nat :=
  let cross1 := w * nh
  let cross2 := nw * h
  let use_width := if fill then cross1 < cross2 else cross2 ≤ cross1
  if use_width then (nw, h * nw / w) else (w * nh / h, nh)

/-- Dimensions produced by DynamicImage::thumbnail: aspect-preserving fit. -/
def thumbnail_dims (w h nw nh : Nat) : Nat × Nat :=
  resize_dimensions w h nw nh false

/-- Dimensions produced by DynamicImage::thumbnail_exact: exact resize. -/
def thumbnail_exact_dims (_w _h nw nh : Nat) : Nat × Nat := (nw, nh)

/-- The dimension behaviour of fn resize in block.rs (lines 156-190): target
dimensions from the optional width/height (terminal-cell height doubled), with
the no-bounds case capped by the terminal size minus one row. -/
def resize_dims (w h : Nat) (width height : Option Nat) : Nat × Nat :=
  let print_width := match width with | some tw => tw | none => w
  let print_height := match height with | some th => 2 * th | none => h
  match width, height with
  | none, none =>
    let tw := terminal_size.1
    let th := terminal_size.2 - 1
    let pw := if tw < print_width then tw else print_width
    let ph := if th < print_height then 2 * th else print_height
    thumbnail_dims w h pw ph
  | some _, none => thumbnail_dims w h print_width print_height
  | none, some _ => thumbnail_dims w h print_width print_height
  | some _, some _ => thumbnail_exact_dims w h print_width print_height

/-- The grid-level fn resize of block.rs: dimensions via resize_dims, pixel
content modelled by nearest-neighbour sampling (the external crate's filtering
is irrelevant to every claim, which concern dimensions only). -/
def resize (g : Grid) (width height : Option Nat) : Grid :=
  let d := resize_dims g.width g.height width height
  { width := d.1, height := d.2,
    pix := fun x y => g.pix (x * g.width / d.1) (y * g.height / d.2) }

/-- The cursor-offset operations emitted before any pixel processing
(block.rs lines 34-54), or the InvalidConfiguration error. -/
def yPrefix (cfg : Config) : Except ViuError (List Op) :=
  if cfg.absolute_offset then
    if 0 ≤ cfg.y then Except.ok [Op.moveTo 0 cfg.y.toNat]
    else Except.error
      (ViuError.invalidConfiguration "absolute_offset is true but y offset is negative")
  else if cfg.y < 0 then Except.ok [Op.moveToPreviousLine (-cfg.y).toNat]
  else Except.ok (List.replicate cfg.y.toNat Op.newline)

/-- The MoveRight emitted before each full terminal row when config.x > 0. -/
def xOffsetOps (cfg : Config) : List Op :=
  if 0 < cfg.x then [Op.moveRight cfg.x] else []

/-- The mutable state of the pixel loop of BlockPrinter::print: position
counters, mode, the row and output buffers, the chunks delivered to the sink
so far, and a flush counter indexing the sink's responses. -/
structure LoopSt where
  currCol : Nat
  currRow : Nat
  mode : Mode
  rowBuffer : List ColorSpec
  outBuffer : List Op
  chunks : List (List Op)
  flushIdx : Nat
  deriving Repr

/-- Completing a terminal row (block.rs lines 119-130): emit the x offset,
fill the out buffer from the completed row buffer `rb` and flush; on success
start the next row pair afresh, on failure abort with the chunks delivered so
far. -/
def flushRow (cfg : Config) (resp : Nat → Option IOError) (st : LoopSt)
    (rb : List ColorSpec) : Except (List (List Op) × ViuError) LoopSt :=
  let ob := st.outBuffer ++ xOffsetOps cfg ++ fill_out_buffer rb false
  match print_buffer (resp st.flushIdx) st.chunks ob with
  | Except.ok (cs, ob1) =>
    Except.ok { currCol := 0, currRow := st.currRow + 1, mode := Mode.top,
                rowBuffer := [], outBuffer := ob1, chunks := cs,
                flushIdx := st.flushIdx + 1 }
  | Except.error e => Except.error (st.chunks, e)

/-- One iteration of the pixel loop of BlockPrinter::print (lines 78-135):
compute the pixel's color, extend or upgrade the row buffer, and on completing
a bottom row flush it.  An error from the flush aborts the loop carrying the
chunks delivered so far. -/
def stepPixel (cfg : Config) (w : Nat) (resp : Nat → Option IOError)
    (st : LoopSt) (px : Nat × Nat × Rgba) : Except (List (List Op) × ViuError) LoopSt :=
  let color := pixelColor cfg st.currRow st.currCol px
  let rb :=
    if st.mode = Mode.top then st.rowBuffer ++ [{ fg := none, bg := color }]
    else st.rowBuffer.set st.currCol
      { st.rowBuffer.getD st.currCol {} with fg := color }
  let col1 := st.currCol + 1
  if rb.length = w then
    if st.mode = Mode.top then
      Except.ok { st with rowBuffer := rb, currCol := 0,
                          currRow := st.currRow + 1, mode := Mode.bottom }
    else if col1 = w then flushRow cfg resp st rb
    else Except.ok { st with rowBuffer := rb, currCol := col1 }
  else Except.ok { st with rowBuffer := rb, currCol := col1 }

/-- The pixels of row y in traversal order, as yielded by img.pixels(). -/
def rowPixels (g : Grid) (y : Nat) : List (Nat × Nat × Rgba) :=
  (List.range g.width).map fun x => (x, y, g.pix x y)

/-- The pixels of n consecutive rows starting at row r, row-major. -/
def rowsFrom (g : Grid) (r : Nat) : Nat → List (Nat × Nat × Rgba)
  | 0 => []
  | n + 1 => rowPixels g r ++ rowsFrom g (r + 1) n

/-- The full row-major pixel sequence of img.pixels(). -/
def gridPixels (g : Grid) : List (Nat × Nat × Rgba) := rowsFrom g 0 g.height

/-- The loop and epilogue of BlockPrinter::print (lines 66-143) on an already
resized grid: run the pixel loop from the given out-buffer prefix, flush the
remaining (odd) row in last-row mode, and do the final flush.  Returns the
chunks delivered to the sink and the call's result. -/
def renderLoop (g : Grid) (cfg : Config) (resp : Nat → Option IOError)
    (pre : List Op) : List (List Op) × Except ViuError Unit :=
  let st0 : LoopSt :=
    { currCol := 0, currRow := 0, mode := Mode.top, rowBuffer := [],
      outBuffer := pre, chunks := [], flushIdx := 0 }
  match List.foldlM (stepPixel cfg g.width resp) st0 (gridPixels g) with
  | Except.error (cs, e) => (cs, Except.error e)
  | Except.ok st =>
    let st1 := if st.rowBuffer.isEmpty then st
               else { st with outBuffer := st.outBuffer ++ fill_out_buffer st.rowBuffer true,
                              rowBuffer := [] }
    match print_buffer (resp st1.flushIdx) st1.chunks st1.outBuffer with
    | Except.ok (cs, _) => (cs, Except.ok ())
    | Except.error e => (st1.chunks, Except.error e)

/-- The image actually handed to the pixel loop: resized only when
config.resize is set (block.rs lines 56-63). -/
def effectiveGrid (g : Grid) (cfg : Config) : Grid :=
  if cfg.resize then resize g cfg.width cfg.height else g

/-- BlockPrinter::print with an injectable sink: y-offset handling (which can
reject the configuration before anything reaches the sink), optional resize,
then the pixel loop.  `resp k` is the sink's response to the k-th flush. -/
def printS (g : Grid) (cfg : Config) (resp : Nat → Option IOError) :
    List (List Op) × Except ViuError Unit :=
  match yPrefix cfg with
  | Except.error e => ([], Except.error e)
  | Except.ok pre => renderLoop (effectiveGrid g cfg) cfg resp pre

/-- A sink that accepts every flush. -/
def allOk : Nat → Option IOError := fun _ => none

/-- BlockPrinter::print against a healthy sink. -/
def print (g : Grid) (cfg : Config) : List (List Op) × Except ViuError Unit :=
  printS g cfg allOk

/-- The cell specs a top row r contributes to the row buffer, starting at
column i: background from each pixel, foreground unset. -/
def topSpecsFrom (cfg : Config) (row : Nat) : Nat → List (Nat × Nat × Rgba) → List ColorSpec
  | _, [] => []
  | i, p :: ps =>
    { fg := none, bg := pixelColor cfg row i p } :: topSpecsFrom cfg row (i + 1) ps

/-- The foreground upgrades a bottom row performs on the specs of its top row,
starting at column i. -/
def botUpd (cfg : Config) (row : Nat) : Nat → List (Nat × Nat × Rgba) → List ColorSpec → List ColorSpec
  | _, [], rest => rest
  | _, _ :: _, [] => []
  | i, p :: ps, c :: cs =>
    { c with fg := pixelColor cfg row i p } :: botUpd cfg row (i + 1) ps cs

/-- The completed cell specs of a row pair whose top row is r: background from
the top pixel, foreground from the bottom pixel. -/
def pairFrom (cfg : Config) (r : Nat) : Nat → List (Nat × Nat × Rgba) → List (Nat × Nat × Rgba) → List ColorSpec
  | i, p1 :: ps1, p2 :: ps2 =>
    { fg := pixelColor cfg (r + 1) i p2, bg := pixelColor cfg r i p1 } ::
      pairFrom cfg r (i + 1) ps1 ps2
  | _, _, _ => []

/-- The row-buffer contents after processing top row y alone. -/
def topSpecsRow (g : Grid) (cfg : Config) (y : Nat) : List ColorSpec :=
  topSpecsFrom cfg y 0 (rowPixels g y)

/-- The completed cell specs of the row pair (r, r+1). -/
def pairSpecsRow (g : Grid) (cfg : Config) (r : Nat) : List ColorSpec :=
  pairFrom cfg r 0 (rowPixels g r) (rowPixels g (r + 1))

/-- The chunks flushed for q row pairs starting at top row r, with `ob` the
out-buffer contents pending before the first of them; also returns the pending
out-buffer contents afterwards (`ob` itself when q = 0). -/
def pairChunksAux (g : Grid) (cfg : Config) (ob : List Op) (r : Nat) : Nat → List (List Op) × List Op
  | 0 => ([], ob)
  | q + 1 =>
    let ch := ob ++ xOffsetOps cfg ++ fill_out_buffer (pairSpecsRow g cfg r) false
    let rest := pairChunksAux g cfg [] (r + 2) q
    (ch :: rest.1, rest.2)

/-- Reference description of a whole render against a healthy sink: one chunk
per row pair, each cell spec complete and flushed exactly once, followed by
the final flush, which carries the unpaired last row (in last-row mode) iff
the height is odd. -/
def renderChunks (g : Grid) (cfg : Config) (pre : List Op) : List (List Op) :=
  let pc := pairChunksAux g cfg pre 0 (g.height / 2)
  pc.1 ++ [pc.2 ++ (if g.height % 2 = 1 then
    fill_out_buffer (topSpecsRow g cfg (g.height - 1)) true else [])]

/-- A 1x1 grid holding a single opaque pixel. -/
def grid1 : Grid :=
  { width := 1, height := 1, pix := fun _ _ => { r := 10, g := 20, b := 30, a := 255 } }

/-- A plain default-like configuration: no offsets, no resizing, truecolor. -/
def cfg0 : Config :=
  { width := none, height := none, x := 0, y := 0, absolute_offset := false,
    transparent := false, truecolor := true, resize := false }

/-- The dark checkerboard tone as a terminal color. -/
def checkerDark (truecolor : Bool) : Color :=
  if truecolor then
    Color.Rgb CHECKERBOARD_BACKGROUND_DARK.1 CHECKERBOARD_BACKGROUND_DARK.2.1
      CHECKERBOARD_BACKGROUND_DARK.2.2
  else Color.Ansi256 (ansi256_from_rgb CHECKERBOARD_BACKGROUND_DARK)

/-- The light checkerboard tone as a terminal color. -/
def checkerLight (truecolor : Bool) : Color :=
  if truecolor then
    Color.Rgb CHECKERBOARD_BACKGROUND_LIGHT.1 CHECKERBOARD_BACKGROUND_LIGHT.2.1
      CHECKERBOARD_BACKGROUND_LIGHT.2.2
  else Color.Ansi256 (ansi256_from_rgb CHECKERBOARD_BACKGROUND_LIGHT)

/-- Claim C9 as stated: a cell with only one half populated never reaches the
sink.  Cells with a single populated half occur exactly in the unpaired last
row of an odd-height grid, whose flush is the final chunk; the claim therefore
asserts that this final chunk contains no glyph write. -/
def completedCellsOnlyClaim : Prop :=
  ∀ (g : Grid) (cfg : Config) (pre : List Op),
    yPrefix cfg = Except.ok pre →
    0 < (effectiveGrid g cfg).width →
    (effectiveGrid g cfg).height % 2 = 1 →
    ∀ s, Op.write s ∉ ((print g cfg).1.getLastD [])

/-- A configuration requesting an absolute offset with negative y. -/
def cfgAbsNeg : Config := { cfg0 with absolute_offset := true, y := -1 }

/-- A sample completed cell spec. -/
def spec1 : ColorSpec := { fg := none, bg := some (Color.Rgb 1 2 3) }

/-- A broken-pipe I/O error. -/
def eBP : IOError := { kind := IOErrorKind.brokenPipe }

/-- A not-found I/O error (any kind other than broken pipe). -/
def eNF : IOError := { kind := IOErrorKind.notFound }

/-- A sink whose every flush fails with a broken pipe. -/
def respBP : Nat → Option IOError := fun _ => some eBP

/-- A sink whose every flush fails with a not-found error. -/
def respNF : Nat → Option IOError := fun _ => some eNF

/-! ### Resize helper lemmas -/

theorem resize_dimensions_false_eq (w h nw nh : Nat) :
    resize_dimensions w h nw nh false =
      if nw * h ≤ w * nh then (nw, h * nw / w) else (w * nh / h, nh) := rfl

theorem thumb_bounds (w h nw nh bw bh : Nat) (hw : 0 < w) (hh : 0 < h)
    (h1 : nw ≤ bw) (h2 : nh ≤ bh) :
    (resize_dimensions w h nw nh false).1 ≤ bw ∧
    (resize_dimensions w h nw nh false).2 ≤ bh := by
  rw [resize_dimensions_false_eq]
  split_ifs with hu
  · refine ⟨h1, ?_⟩
    have hm : h * nw ≤ w * nh := by rw [Nat.mul_comm h nw]; exact hu
    have hd : h * nw / w ≤ w * nh / w := Nat.div_le_div_right hm
    rw [Nat.mul_div_cancel_left nh hw] at hd
    exact le_trans hd h2
  · push_neg at hu
    refine ⟨?_, h2⟩
    have hd : w * nh / h < nw := (Nat.div_lt_iff_lt_mul hh).mpr hu
    exact le_trans (Nat.le_of_lt hd) h1

theorem thumb_aspect (w h nw nh : Nat) :
    (resize_dimensions w h nw nh false).1 = w * (resize_dimensions w h nw nh false).2 / h ∨
    (resize_dimensions w h nw nh false).2 = h * (resize_dimensions w h nw nh false).1 / w := by
  rw [resize_dimensions_false_eq]
  split_ifs with hu
  · right; rfl
  · left; rfl

theorem thumb_id (w h nh : Nat) (hw : 0 < w) (hle : h ≤ nh) :
    resize_dimensions w h w nh false = (w, h) := by
  rw [resize_dimensions_false_eq, if_pos (Nat.mul_le_mul_left w hle)]
  have hc : h * w / w = h := by rw [Nat.mul_comm]; exact Nat.mul_div_cancel_left h hw
  rw [hc]

/-! ### Claims about pure helpers -/

/-- C1: for every terminal cell of a non-last row, fill_out_buffer follows the
four-case policy: both halves absent moves the cursor right with no write;
only the top (background) absent writes the lower half block colored by the
bottom pixel; only the bottom (foreground) absent writes the upper half block
colored by the top pixel; both present keep both colors and write the lower
half block with foreground = bottom pixel color, background = top pixel
color. -/
theorem fill_cell_policy (c : ColorSpec) (rest : List ColorSpec) :
    fill_out_buffer (c :: rest) false =
      (match c.fg, c.bg with
       | none, none => [Op.moveRight 1]
       | some bottom, none =>
         [Op.setColor { fg := some bottom, bg := none }, Op.write LOWER_HALF_BLOCK]
       | none, some top =>
         [Op.setColor { fg := some top, bg := none }, Op.write UPPER_HALF_BLOCK]
       | some bottom, some top =>
         [Op.setColor { fg := some bottom, bg := some top }, Op.write LOWER_HALF_BLOCK])
      ++ fill_out_buffer rest false := by
  rcases c with ⟨fg, bg⟩
  cases fg <;> cases bg <;> rfl

theorem fill_cell_policy_witness :
    fill_out_buffer [({ fg := none, bg := some (Color.Rgb 1 2 3) } : ColorSpec)] false =
      [Op.setColor { fg := some (Color.Rgb 1 2 3), bg := none }, Op.write UPPER_HALF_BLOCK]
        ++ fill_out_buffer [] false :=
  fill_cell_policy { fg := none, bg := some (Color.Rgb 1 2 3) } []

theorem checker_tones_distinct (tc : Bool) : checkerDark tc ≠ checkerLight tc := by
  cases tc <;> simp [checkerDark, checkerLight] <;> decide

theorem get_transparency_color_eq (r c : Nat) (tc : Bool) :
    get_transparency_color r c tc =
      if r % 2 = c % 2 then checkerDark tc else checkerLight tc := by
  by_cases hpar : r % 2 = c % 2 <;>
    cases tc <;>
      simp [get_transparency_color, checkerDark, checkerLight, hpar]

/-- C2: for every pixel with alpha 0 and config.transparent unset, the emitted
color is one of exactly the two fixed checkerboard tones, chosen solely by
whether the row parity equals the column parity, independent of the pixel's
RGB values. -/
theorem transparency_checkerboard (cfg : Config) (r c : Nat)
    (p1 p2 : Nat × Nat × Rgba) (h1 : p1.2.2.a = 0) (h2 : p2.2.2.a = 0)
    (ht : cfg.transparent = false) :
    pixelColor cfg r c p1 = pixelColor cfg r c p2 ∧
    (pixelColor cfg r c p1 = some (checkerDark cfg.truecolor) ∨
     pixelColor cfg r c p1 = some (checkerLight cfg.truecolor)) ∧
    (pixelColor cfg r c p1 = some (checkerDark cfg.truecolor) ↔ r % 2 = c % 2) := by
  have e1 : is_pixel_transparent p1 = true := by simp [is_pixel_transparent, h1]
  have e2 : is_pixel_transparent p2 = true := by simp [is_pixel_transparent, h2]
  have hpc1 : pixelColor cfg r c p1 = some (get_transparency_color r c cfg.truecolor) := by
    simp [pixelColor, e1, ht]
  have hpc2 : pixelColor cfg r c p2 = some (get_transparency_color r c cfg.truecolor) := by
    simp [pixelColor, e2, ht]
  refine ⟨by rw [hpc1, hpc2], ?_, ?_⟩
  · rw [hpc1, get_transparency_color_eq]
    by_cases hpar : r % 2 = c % 2
    · left; rw [if_pos hpar]
    · right; rw [if_neg hpar]
  · rw [hpc1, get_transparency_color_eq]
    constructor
    · intro heq
      by_contra hpar
      rw [if_neg hpar] at heq
      exact checker_tones_distinct cfg.truecolor (Option.some.inj heq).symm
    · intro hpar
      rw [if_pos hpar]

theorem transparency_checkerboard_witness :
    ((⟨0, 0, ⟨9, 9, 9, 0⟩⟩ : Nat × Nat × Rgba).2.2.a = 0 ∧
     (⟨0, 0, ⟨1, 2, 3, 0⟩⟩ : Nat × Nat × Rgba).2.2.a = 0 ∧
     cfg0.transparent = false) ∧
    (pixelColor cfg0 1 0 ⟨0, 0, ⟨9, 9, 9, 0⟩⟩ = pixelColor cfg0 1 0 ⟨0, 0, ⟨1, 2, 3, 0⟩⟩ ∧
     (pixelColor cfg0 1 0 ⟨0, 0, ⟨9, 9, 9, 0⟩⟩ = some (checkerDark cfg0.truecolor) ∨
      pixelColor cfg0 1 0 ⟨0, 0, ⟨9, 9, 9, 0⟩⟩ = some (checkerLight cfg0.truecolor)) ∧
     (pixelColor cfg0 1 0 ⟨0, 0, ⟨9, 9, 9, 0⟩⟩ = some (checkerDark cfg0.truecolor) ↔
      1 % 2 = 0 % 2)) :=
  ⟨⟨rfl, rfl, rfl⟩, transparency_checkerboard cfg0 1 0 _ _ rfl rfl rfl⟩

/-- C8: for every pixel with alpha 255, the resolved color in truecolor mode
is exactly the pixel's own RGB triplet, and in 256-color mode the resolved
palette index is a pure deterministic function of the RGB triplet alone (equal
RGB triplets at any positions give the same index). -/
theorem alpha255_color_resolution (cfg : Config) (r c x y x1 y1 : Nat) (d d1 : Rgba)
    (ha : d.a = 255) (_ha1 : d1.a = 255) :
    (cfg.truecolor = true →
      pixelColor cfg r c (x, y, d) = some (Color.Rgb d.r d.g d.b)) ∧
    get_color_from_pixel (x, y, d) true = Color.Rgb d.r d.g d.b ∧
    (d.r = d1.r → d.g = d1.g → d.b = d1.b →
      get_color_from_pixel (x, y, d) false = get_color_from_pixel (x1, y1, d1) false) ∧
    (∃ i, get_color_from_pixel (x, y, d) false = Color.Ansi256 i) := by
  have e1 : is_pixel_transparent (x, y, d) = false := by
    simp [is_pixel_transparent, ha]
  refine ⟨?_, rfl, ?_, ⟨ansi256_from_rgb (d.r, d.g, d.b), rfl⟩⟩
  · intro htc
    simp [pixelColor, e1, get_color_from_pixel, htc]
  · intro hr hg hb
    simp [get_color_from_pixel, hr, hg, hb]

theorem alpha255_color_resolution_witness :
    ((⟨10, 20, 30, 255⟩ : Rgba).a = 255) ∧
    (cfg0.truecolor = true →
      pixelColor cfg0 0 0 (0, 0, ⟨10, 20, 30, 255⟩) = some (Color.Rgb 10 20 30)) ∧
    get_color_from_pixel (0, 0, ⟨10, 20, 30, 255⟩) true = Color.Rgb 10 20 30 ∧
    ((⟨10, 20, 30, 255⟩ : Rgba).r = (⟨10, 20, 30, 255⟩ : Rgba).r →
     (⟨10, 20, 30, 255⟩ : Rgba).g = (⟨10, 20, 30, 255⟩ : Rgba).g →
     (⟨10, 20, 30, 255⟩ : Rgba).b = (⟨10, 20, 30, 255⟩ : Rgba).b →
      get_color_from_pixel (0, 0, ⟨10, 20, 30, 255⟩) false =
        get_color_from_pixel (7, 8, ⟨10, 20, 30, 255⟩) false) ∧
    (∃ i, get_color_from_pixel (0, 0, (⟨10, 20, 30, 255⟩ : Rgba)) false = Color.Ansi256 i) :=
  ⟨rfl, alpha255_color_resolution cfg0 0 0 0 0 7 8 ⟨10, 20, 30, 255⟩ ⟨10, 20, 30, 255⟩ rfl rfl⟩

/-- C4: for every config with absolute_offset set and negative y, the render
fails with InvalidConfiguration and nothing reaches the sink: no flush happens
before the error is returned. -/
theorem negative_absolute_offset_rejected (g : Grid) (cfg : Config)
    (resp : Nat → Option IOError) (habs : cfg.absolute_offset = true)
    (hy : cfg.y < 0) :
    printS g cfg resp =
      ([], Except.error (ViuError.invalidConfiguration
        "absolute_offset is true but y offset is negative")) := by
  have hpre : yPrefix cfg = Except.error
      (ViuError.invalidConfiguration "absolute_offset is true but y offset is negative") := by
    rw [yPrefix, if_pos habs, if_neg (by omega)]
  rw [printS, hpre]

theorem negative_absolute_offset_rejected_witness :
    (cfgAbsNeg.absolute_offset = true ∧ cfgAbsNeg.y < 0) ∧
    printS grid1 cfgAbsNeg allOk =
      ([], Except.error (ViuError.invalidConfiguration
        "absolute_offset is true but y offset is negative")) :=
  ⟨⟨rfl, by decide⟩,
    negative_absolute_offset_rejected grid1 cfgAbsNeg allOk rfl (by decide)⟩

/-- C6: with no target dimensions, resize fits the image within
(terminal_width, 2*(terminal_height-1)) preserving aspect ratio (up to the
source's integer rounding), returns an image already within those bounds
unchanged (never upscales), and on the 80x24 fallback maps 1000x800 to 57x46
and keeps 20x10 at 20x10. -/
theorem resize_fit_no_bounds (w h : Nat) (hw : 0 < w) (hh : 0 < h) :
    ((resize_dims w h none none).1 ≤ terminal_size.1 ∧
     (resize_dims w h none none).2 ≤ 2 * (terminal_size.2 - 1)) ∧
    ((resize_dims w h none none).1 = w * (resize_dims w h none none).2 / h ∨
     (resize_dims w h none none).2 = h * (resize_dims w h none none).1 / w) ∧
    (w ≤ terminal_size.1 → h ≤ 2 * (terminal_size.2 - 1) →
      resize_dims w h none none = (w, h)) ∧
    resize_dims 1000 800 none none = (57, 46) ∧
    resize_dims 20 10 none none = (20, 10) := by
  have hts1 : terminal_size.1 = 80 := rfl
  have hts2 : 2 * (terminal_size.2 - 1) = 46 := rfl
  have key : resize_dims w h none none =
      resize_dimensions w h (if 80 < w then 80 else w) (if 23 < h then 46 else h) false := by
    rfl
  rw [hts1, hts2, key]
  refine ⟨?_, thumb_aspect w h _ _, ?_, by decide, by decide⟩
  · exact thumb_bounds w h _ _ 80 46 hw hh (by split_ifs <;> omega) (by split_ifs <;> omega)
  · intro hW hH
    rw [if_neg (by omega : ¬ 80 < w)]
    by_cases h23 : 23 < h
    · rw [if_pos h23]
      exact thumb_id w h 46 hw (by omega)
    · rw [if_neg h23]
      exact thumb_id w h h hw le_rfl

theorem resize_fit_no_bounds_witness :
    ((0 : Nat) < 1000 ∧ (0 : Nat) < 800) ∧
    (((resize_dims 1000 800 none none).1 ≤ terminal_size.1 ∧
      (resize_dims 1000 800 none none).2 ≤ 2 * (terminal_size.2 - 1)) ∧
     ((resize_dims 1000 800 none none).1 = 1000 * (resize_dims 1000 800 none none).2 / 800 ∨
      (resize_dims 1000 800 none none).2 = 800 * (resize_dims 1000 800 none none).1 / 1000) ∧
     (1000 ≤ terminal_size.1 → 800 ≤ 2 * (terminal_size.2 - 1) →
       resize_dims 1000 800 none none = (1000, 800)) ∧
     resize_dims 1000 800 none none = (57, 46) ∧
     resize_dims 20 10 none none = (20, 10)) :=
  ⟨⟨by decide, by decide⟩, resize_fit_no_bounds 1000 800 (by decide) (by decide)⟩

/-- C7 fails as stated on the code: with only a width supplied, a source
already narrower than that width is returned unchanged rather than resized to
the target; resize(20x10, width=100) keeps 20x10, exactly as the repository's
own test test_resize_some_none asserts. -/
theorem resize_targets_counterexample :
    resize_dims 20 10 (some 100) none = (20, 10) ∧
    (resize_dims 20 10 (some 100) none).1 ≠ 100 := by decide

/-- C7 amended: with both dimensions supplied, resize always scales to exactly
(width, 2*height); with exactly one supplied, the image is fitted against that
bound and the source's own other dimension, preserving aspect ratio, and a
source already within the bound is returned unchanged (never upscaled). -/
theorem resize_targets_amended (w h tw th : Nat) (hw : 0 < w) (hh : 0 < h) :
    resize_dims w h (some tw) (some th) = (tw, 2 * th) ∧
    (w ≤ tw → resize_dims w h (some tw) none = (w, h)) ∧
    (h ≤ 2 * th → resize_dims w h none (some th) = (w, h)) ∧
    (tw ≤ w → resize_dims w h (some tw) none = (tw, h * tw / w)) ∧
    (2 * th ≤ h → resize_dims w h none (some th) = (w * (2 * th) / h, 2 * th)) := by
  have ew : resize_dims w h (some tw) none =
      if tw * h ≤ w * h then (tw, h * tw / w) else (w * h / h, h) := rfl
  have eh : resize_dims w h none (some th) =
      if w * h ≤ w * (2 * th) then (w, h * w / w) else (w * (2 * th) / h, 2 * th) := rfl
  have hww : h * w / w = h := by rw [Nat.mul_comm]; exact Nat.mul_div_cancel_left h hw
  have hhh : w * h / h = w := by
    rw [Nat.mul_comm w h]; exact Nat.mul_div_cancel_left w hh
  refine ⟨rfl, ?_, ?_, ?_, ?_⟩
  · intro hwt
    rw [ew]
    split_ifs with hu
    · have h1 : tw ≤ w := Nat.le_of_mul_le_mul_right hu hh
      have h2 : tw = w := le_antisymm h1 hwt
      rw [h2, hww]
    · rw [hhh]
  · intro hth
    rw [eh, if_pos (Nat.mul_le_mul_left w hth), hww]
  · intro htw
    rw [ew, if_pos (Nat.mul_le_mul_right h htw)]
  · intro hth
    by_cases hu : w * h ≤ w * (2 * th)
    · have h1 : h ≤ 2 * th := Nat.le_of_mul_le_mul_left hu hw
      have h2 : h = 2 * th := le_antisymm h1 hth
      rw [eh, if_pos hu, hww, ← h2, hhh]
    · rw [eh, if_neg hu]

theorem resize_targets_amended_witness :
    ((0 : Nat) < 20 ∧ (0 : Nat) < 10) ∧
    (resize_dims 20 10 (some 100) (some 7) = (100, 2 * 7) ∧
     (20 ≤ 100 → resize_dims 20 10 (some 100) none = (20, 10)) ∧
     (10 ≤ 2 * 7 → resize_dims 20 10 none (some 7) = (20, 10)) ∧
     (100 ≤ 20 → resize_dims 20 10 (some 100) none = (100, 10 * 100 / 20)) ∧
     (2 * 7 ≤ 10 → resize_dims 20 10 none (some 7) = (20 * (2 * 7) / 10, 2 * 7))) :=
  ⟨⟨by decide, by decide⟩, resize_targets_amended 20 10 100 7 (by decide) (by decide)⟩

/-! ### Loop step equations and fold lemmas -/

theorem foldlM_cons_ex {α σ ε : Type} (f : σ → α → Except ε σ) (s : σ) (a : α) (l : List α) :
    List.foldlM f s (a :: l) = f s a >>= fun s1 => List.foldlM f s1 l := rfl

theorem foldlM_nil_ex {α σ ε : Type} (f : σ → α → Except ε σ) (s : σ) :
    List.foldlM f s ([] : List α) = Except.ok s := rfl

theorem ok_bind {ε σ τ : Type} (x : σ) (f : σ → Except ε τ) :
    (Except.ok x >>= f) = f x := rfl

theorem error_bind {ε σ τ : Type} (e : ε) (f : σ → Except ε τ) :
    ((Except.error e : Except ε σ) >>= f) = Except.error e := rfl

theorem bind_pure_ex {ε σ : Type} (x : Except ε σ) :
    (x >>= fun s => Except.ok s) = x := by cases x <;> rfl

theorem foldlM_append_ex {α σ ε : Type} (f : σ → α → Except ε σ) (l1 l2 : List α) (s : σ) :
    List.foldlM f s (l1 ++ l2) =
      List.foldlM f s l1 >>= fun s1 => List.foldlM f s1 l2 := by
  induction l1 generalizing s with
  | nil => rfl
  | cons a l ih =>
    rw [List.cons_append, foldlM_cons_ex, foldlM_cons_ex]
    cases f s a with
    | ok v => rw [ok_bind, ok_bind, ih]
    | error e => exact (error_bind e _).symm

theorem getD_append_len {α : Type} (A : List α) (c : α) (B : List α) (d : α) :
    (A ++ c :: B).getD A.length d = c := by
  induction A with
  | nil => rfl
  | cons a A ih => simpa using ih

theorem set_append_len {α : Type} (A : List α) (c v : α) (B : List α) :
    (A ++ c :: B).set A.length v = A ++ v :: B := by
  induction A with
  | nil => rfl
  | cons a A ih => simp [List.set, ih]

theorem stepPixel_top_mid (cfg : Config) (w : Nat) (resp : Nat → Option IOError)
    (st : LoopSt) (px : Nat × Nat × Rgba)
    (hm : st.mode = Mode.top) (hlen : st.rowBuffer.length + 1 ≠ w) :
    stepPixel cfg w resp st px =
      Except.ok { st with
        rowBuffer := st.rowBuffer ++
          [{ fg := none, bg := pixelColor cfg st.currRow st.currCol px }],
        currCol := st.currCol + 1 } := by
  obtain ⟨cc, cr, m, rb, ob, cs, fi⟩ := st
  simp only [LoopSt.mode] at hm
  subst hm
  simp only at hlen
  simp [stepPixel, hlen]

theorem stepPixel_top_full (cfg : Config) (w : Nat) (resp : Nat → Option IOError)
    (st : LoopSt) (px : Nat × Nat × Rgba)
    (hm : st.mode = Mode.top) (hlen : st.rowBuffer.length + 1 = w) :
    stepPixel cfg w resp st px =
      Except.ok { st with
        rowBuffer := st.rowBuffer ++
          [{ fg := none, bg := pixelColor cfg st.currRow st.currCol px }],
        currCol := 0, currRow := st.currRow + 1, mode := Mode.bottom } := by
  obtain ⟨cc, cr, m, rb, ob, cs, fi⟩ := st
  simp only [LoopSt.mode] at hm
  subst hm
  simp only at hlen
  simp [stepPixel, hlen]

theorem stepPixel_bottom_mid (cfg : Config) (w : Nat) (resp : Nat → Option IOError)
    (st : LoopSt) (px : Nat × Nat × Rgba)
    (hm : st.mode = Mode.bottom) (hlen : st.rowBuffer.length = w)
    (hcol : st.currCol + 1 ≠ w) :
    stepPixel cfg w resp st px =
      Except.ok { st with
        rowBuffer := st.rowBuffer.set st.currCol
          { st.rowBuffer.getD st.currCol {} with
              fg := pixelColor cfg st.currRow st.currCol px },
        currCol := st.currCol + 1 } := by
  obtain ⟨cc, cr, m, rb, ob, cs, fi⟩ := st
  simp only [LoopSt.mode] at hm
  subst hm
  simp only at hlen hcol
  simp [stepPixel, hlen, hcol]

theorem stepPixel_bottom_flush (cfg : Config) (w : Nat) (resp : Nat → Option IOError)
    (st : LoopSt) (px : Nat × Nat × Rgba)
    (hm : st.mode = Mode.bottom) (hlen : st.rowBuffer.length = w)
    (hcol : st.currCol + 1 = w) :
    stepPixel cfg w resp st px =
      flushRow cfg resp st
        (st.rowBuffer.set st.currCol
          { st.rowBuffer.getD st.currCol {} with
              fg := pixelColor cfg st.currRow st.currCol px }) := by
  obtain ⟨cc, cr, m, rb, ob, cs, fi⟩ := st
  simp only [LoopSt.mode] at hm
  subst hm
  simp only at hlen hcol
  simp [stepPixel, hlen, hcol]

theorem foldTop (cfg : Config) (w : Nat) (resp : Nat → Option IOError) :
    ∀ (ps : List (Nat × Nat × Rgba)) (st : LoopSt),
      st.mode = Mode.top → st.rowBuffer.length = st.currCol →
      st.currCol + ps.length = w → ps ≠ [] →
      List.foldlM (stepPixel cfg w resp) st ps =
        Except.ok { st with
          rowBuffer := st.rowBuffer ++ topSpecsFrom cfg st.currRow st.currCol ps,
          currCol := 0, currRow := st.currRow + 1, mode := Mode.bottom } := by
  intro ps
  induction ps with
  | nil => intro st _ _ _ hne; exact absurd rfl hne
  | cons p tail ih =>
    intro st hm hrb hlen _
    cases tail with
    | nil =>
      have hl1 : st.rowBuffer.length + 1 = w := by
        simp only [List.length_cons, List.length_nil] at hlen
        omega
      rw [foldlM_cons_ex, stepPixel_top_full cfg w resp st p hm hl1, ok_bind,
        foldlM_nil_ex]
      simp [topSpecsFrom]
    | cons p2 t2 =>
      have hl1 : st.rowBuffer.length + 1 ≠ w := by
        simp only [List.length_cons] at hlen
        omega
      rw [foldlM_cons_ex, stepPixel_top_mid cfg w resp st p hm hl1, ok_bind]
      rw [ih _ (by simp [hm]) (by simp [hrb]) (by simp only [List.length_cons] at hlen ⊢; omega)
        (by simp)]
      simp [topSpecsFrom]

theorem flushRow_congr (cfg : Config) (resp : Nat → Option IOError)
    (st1 st2 : LoopSt) (rb : List ColorSpec)
    (h1 : st1.outBuffer = st2.outBuffer) (h2 : st1.chunks = st2.chunks)
    (h3 : st1.flushIdx = st2.flushIdx) (h4 : st1.currRow = st2.currRow) :
    flushRow cfg resp st1 rb = flushRow cfg resp st2 rb := by
  simp only [flushRow, h1, h2, h3, h4]

theorem foldBottom (cfg : Config) (w : Nat) (resp : Nat → Option IOError) :
    ∀ (ps : List (Nat × Nat × Rgba)) (A B : List ColorSpec) (st : LoopSt),
      st.mode = Mode.bottom → st.rowBuffer = A ++ B → st.currCol = A.length →
      B.length = ps.length → st.currCol + ps.length = w → ps ≠ [] →
      List.foldlM (stepPixel cfg w resp) st ps =
        flushRow cfg resp st (A ++ botUpd cfg st.currRow st.currCol ps B) := by
  intro ps
  induction ps with
  | nil => intro A B st _ _ _ _ _ hne; exact absurd rfl hne
  | cons p tail ih =>
    intro A B st hm hrb hcc hB hlen _
    cases B with
    | nil => simp at hB
    | cons cspec B2 =>
      have hB2 : B2.length = tail.length := by simpa using hB
      have hlen_rb : st.rowBuffer.length = w := by
        rw [hrb]
        simp only [List.length_append, List.length_cons]
        simp only [List.length_cons] at hlen
        omega
      have hgd : st.rowBuffer.getD st.currCol {} = cspec := by
        rw [hrb, hcc]; exact getD_append_len A cspec B2 _
      have hst : st.rowBuffer.set st.currCol
          { cspec with fg := pixelColor cfg st.currRow st.currCol p } =
          A ++ { cspec with fg := pixelColor cfg st.currRow st.currCol p } :: B2 := by
        rw [hrb, hcc]; exact set_append_len A cspec _ B2
      cases tail with
      | nil =>
        have hcol : st.currCol + 1 = w := by simpa using hlen
        have hB2e : B2 = [] := List.length_eq_zero.mp (by simpa using hB2)
        rw [foldlM_cons_ex, stepPixel_bottom_flush cfg w resp st p hm hlen_rb hcol,
          hgd, hst, hB2e]
        simp only [foldlM_nil_ex]
        rw [bind_pure_ex]
        simp [botUpd]
      | cons p2 t2 =>
        have hcol : st.currCol + 1 ≠ w := by
          simp only [List.length_cons] at hlen
          omega
        rw [foldlM_cons_ex, stepPixel_bottom_mid cfg w resp st p hm hlen_rb hcol,
          hgd, ok_bind]
        have hih := ih (A ++ [{ cspec with fg := pixelColor cfg st.currRow st.currCol p }]) B2
          { st with
            rowBuffer :=
              st.rowBuffer.set st.currCol ({ cspec with fg := pixelColor cfg st.currRow st.currCol p }),
            currCol := st.currCol + 1 }
          hm (by rw [hst]; simp) (by simp [hcc]) hB2
          (by simp only [List.length_cons] at hlen ⊢
              omega)
          (by simp)
        rw [hih]
        simp only [botUpd, List.append_assoc, List.cons_append, List.nil_append]
        exact flushRow_congr cfg resp _ st _ rfl rfl rfl rfl

theorem rowPixels_length (g : Grid) (y : Nat) : (rowPixels g y).length = g.width := by
  simp [rowPixels]

theorem rowPixels_ne_nil (g : Grid) (y : Nat) (hw : 0 < g.width) :
    rowPixels g y ≠ [] := by
  intro he
  have hl := rowPixels_length g y
  rw [he] at hl
  simp at hl
  omega

theorem topSpecsFrom_length (cfg : Config) (row : Nat) :
    ∀ (i : Nat) (ps : List (Nat × Nat × Rgba)),
      (topSpecsFrom cfg row i ps).length = ps.length := by
  intro i ps
  induction ps generalizing i with
  | nil => rfl
  | cons p tail ih => simp [topSpecsFrom, ih]

theorem botUpd_topSpecs (cfg : Config) :
    ∀ (ps1 ps2 : List (Nat × Nat × Rgba)) (r i : Nat), ps1.length = ps2.length →
      botUpd cfg (r + 1) i ps2 (topSpecsFrom cfg r i ps1) = pairFrom cfg r i ps1 ps2 := by
  intro ps1
  induction ps1 with
  | nil =>
    intro ps2 r i h
    have h2 : ps2 = [] := List.length_eq_zero.mp (by simpa using h.symm)
    subst h2
    rfl
  | cons p1 t1 ih =>
    intro ps2 r i h
    cases ps2 with
    | nil => simp at h
    | cons p2 t2 =>
      simp only [topSpecsFrom, botUpd, pairFrom]
      rw [ih t2 r (i + 1) (by simpa using h)]

theorem flushRow_ok_none (cfg : Config) (resp : Nat → Option IOError) (st : LoopSt)
    (rb : List ColorSpec) (h : resp st.flushIdx = none) :
    flushRow cfg resp st rb = Except.ok
      { currCol := 0, currRow := st.currRow + 1, mode := Mode.top, rowBuffer := [],
        outBuffer := [],
        chunks := st.chunks ++ [st.outBuffer ++ xOffsetOps cfg ++ fill_out_buffer rb false],
        flushIdx := st.flushIdx + 1 } := by
  simp [flushRow, print_buffer, h]

theorem foldPair (g : Grid) (cfg : Config) (st : LoopSt)
    (hm : st.mode = Mode.top) (hrb : st.rowBuffer = []) (hcc : st.currCol = 0)
    (hw : 0 < g.width) :
    List.foldlM (stepPixel cfg g.width allOk) st
        (rowPixels g st.currRow ++ rowPixels g (st.currRow + 1)) =
      Except.ok { currCol := 0, currRow := st.currRow + 2, mode := Mode.top, rowBuffer := [],
                  outBuffer := [],
                  chunks := st.chunks ++ [st.outBuffer ++ xOffsetOps cfg ++
                    fill_out_buffer (pairSpecsRow g cfg st.currRow) false],
                  flushIdx := st.flushIdx + 1 } := by
  obtain ⟨cc, cr, m, rb, ob, cs, fi⟩ := st
  simp only [LoopSt.mode, LoopSt.rowBuffer, LoopSt.currCol, LoopSt.currRow] at hm hrb hcc ⊢
  subst hm hrb hcc
  rw [foldlM_append_ex]
  rw [foldTop cfg g.width allOk (rowPixels g cr) _ rfl rfl
    (by simp [rowPixels_length]) (rowPixels_ne_nil g cr hw)]
  rw [ok_bind]
  rw [foldBottom cfg g.width allOk (rowPixels g (cr + 1)) []
    (topSpecsFrom cfg cr 0 (rowPixels g cr)) _ rfl (by simp) rfl
    (by simp [topSpecsFrom_length, rowPixels_length])
    (by simp [rowPixels_length]) (rowPixels_ne_nil g (cr + 1) hw)]
  have hbu := botUpd_topSpecs cfg (rowPixels g cr) (rowPixels g (cr + 1)) cr 0
    (by simp [rowPixels_length])
  simp only [List.nil_append]
  rw [hbu]
  rw [flushRow_ok_none cfg allOk _ _ rfl]
  rfl

theorem isEmpty_false_of_length_pos {α : Type} (l : List α) (h : 0 < l.length) :
    l.isEmpty = false := by
  cases l with
  | nil => simp at h
  | cons a t => rfl

theorem foldPairs (g : Grid) (cfg : Config) (hw : 0 < g.width) :
    ∀ (q : Nat) (st : LoopSt),
      st.mode = Mode.top → st.rowBuffer = [] → st.currCol = 0 →
      List.foldlM (stepPixel cfg g.width allOk) st (rowsFrom g st.currRow (2 * q)) =
        Except.ok { currCol := 0, currRow := st.currRow + 2 * q, mode := Mode.top,
                    rowBuffer := [],
                    outBuffer := (pairChunksAux g cfg st.outBuffer st.currRow q).2,
                    chunks := st.chunks ++ (pairChunksAux g cfg st.outBuffer st.currRow q).1,
                    flushIdx := st.flushIdx + q } := by
  intro q
  induction q with
  | zero =>
    intro st hm hrb hcc
    obtain ⟨cc, cr, m, rb, ob, cs, fi⟩ := st
    simp only [LoopSt.mode, LoopSt.rowBuffer, LoopSt.currCol] at hm hrb hcc
    subst hm hrb hcc
    simp only [Nat.mul_zero, rowsFrom, pairChunksAux, Nat.add_zero, List.append_nil]
    rfl
  | succ q ih =>
    intro st hm hrb hcc
    obtain ⟨cc, cr, m, rb, ob, cs, fi⟩ := st
    simp only [LoopSt.mode, LoopSt.rowBuffer, LoopSt.currCol] at hm hrb hcc
    subst hm hrb hcc
    have h2 : 2 * (q + 1) = 2 * q + 1 + 1 := by ring
    rw [h2]
    simp only [rowsFrom]
    rw [← List.append_assoc, foldlM_append_ex]
    rw [foldPair g cfg ⟨0, cr, Mode.top, [], ob, cs, fi⟩ rfl rfl rfl hw]
    rw [ok_bind]
    have h3 : cr + 1 + 1 = cr + 2 := rfl
    rw [h3]
    rw [ih ⟨0, cr + 2, Mode.top, [],
      [], cs ++ [ob ++ xOffsetOps cfg ++ fill_out_buffer (pairSpecsRow g cfg cr) false],
      fi + 1⟩ rfl rfl rfl]
    simp only [pairChunksAux, List.append_assoc, List.cons_append, List.nil_append,
      List.singleton_append]
    have e1 : cr + 2 + 2 * q = cr + (2 * q + 1 + 1) := by omega
    have e2 : fi + 1 + q = fi + (q + 1) := by omega
    rw [e1, e2]

theorem rowsFrom_add (g : Grid) : ∀ (n m r : Nat),
    rowsFrom g r (n + m) = rowsFrom g r n ++ rowsFrom g (r + n) m := by
  intro n
  induction n with
  | zero => intro m r; simp [rowsFrom]
  | succ n ih =>
    intro m r
    have h1 : n + 1 + m = (n + m) + 1 := by omega
    rw [h1]
    simp only [rowsFrom]
    rw [ih m (r + 1)]
    have h2 : r + 1 + n = r + (n + 1) := by omega
    rw [h2, List.append_assoc]

/-- Characterization of a whole render loop against a healthy sink: the sink
receives exactly the per-pair chunks followed by the final flush, which
carries the unpaired last row in last-row mode iff the height is odd. -/
theorem renderLoop_spec (g : Grid) (cfg : Config) (pre : List Op) (hw : 0 < g.width) :
    renderLoop g cfg allOk pre = (renderChunks g cfg pre, Except.ok ()) := by
  rcases Nat.mod_two_eq_zero_or_one g.height with he | ho
  · -- even height
    obtain ⟨q, hq⟩ : ∃ q, g.height = 2 * q := ⟨g.height / 2, by omega⟩
    have hq2 : g.height / 2 = q := by omega
    simp only [renderLoop, gridPixels, renderChunks, hq, hq2, he]
    rw [show (2 * q) % 2 = 0 from by omega] at *
    rw [foldPairs g cfg hw q ⟨0, 0, Mode.top, [], pre, [], 0⟩ rfl rfl rfl]
    simp [print_buffer, allOk]
  · -- odd height
    obtain ⟨q, hq⟩ : ∃ q, g.height = 2 * q + 1 := ⟨g.height / 2, by omega⟩
    have hq2 : g.height / 2 = q := by omega
    have hq3 : g.height - 1 = 2 * q := by omega
    simp only [renderLoop, gridPixels, renderChunks, hq, hq2, hq3, ho]
    rw [rowsFrom_add g (2 * q) 1 0]
    simp only [rowsFrom, List.append_nil, Nat.zero_add]
    rw [foldlM_append_ex]
    rw [foldPairs g cfg hw q ⟨0, 0, Mode.top, [], pre, [], 0⟩ rfl rfl rfl]
    rw [ok_bind]
    rw [foldTop cfg g.width allOk (rowPixels g (2 * q))
      ⟨0, 0 + 2 * q, Mode.top, [], (pairChunksAux g cfg pre 0 q).2,
        [] ++ (pairChunksAux g cfg pre 0 q).1, 0 + q⟩ rfl rfl
      (by simp [rowPixels_length]) (rowPixels_ne_nil g (2 * q) hw)]
    have hne : (topSpecsFrom cfg (0 + 2 * q) 0 (rowPixels g (2 * q))).isEmpty = false := by
      apply isEmpty_false_of_length_pos
      rw [topSpecsFrom_length, rowPixels_length]
      exact hw
    simp only [List.nil_append, Nat.zero_add] at hne ⊢
    have e1 : (2 * q + 1) / 2 = q := by omega
    have e2 : (2 * q + 1) % 2 = 1 := by omega
    simp [hne, print_buffer, allOk, topSpecsRow, e1, e2]

/-! ### Last-row glyph facts and remaining claims -/

theorem upper_ne_lower : UPPER_HALF_BLOCK ≠ LOWER_HALF_BLOCK := by decide

theorem lower_never_in_last_row (row : List ColorSpec) :
    Op.write LOWER_HALF_BLOCK ∉ fill_out_buffer row true := by
  induction row with
  | nil => simp [fill_out_buffer]
  | cons c rest ih =>
    rcases c with ⟨fg, bg⟩
    cases bg with
    | none => simpa [fill_out_buffer] using ih
    | some b =>
      simp [fill_out_buffer, ih]
      exact fun h => absurd h.symm upper_ne_lower

/-- C3: for every image whose (effective) pixel grid has an odd number of
rows, after the main loop the remaining single-pixel row is flushed in
last-row mode as the final chunk; in that mode every cell with a background
color is written as the upper-half-block glyph with foreground set to that
background color, a cell without one just moves the cursor right one column,
and the lower-half-block glyph is never emitted. -/
theorem odd_height_last_row (g : Grid) (cfg : Config) (pre : List Op)
    (c : ColorSpec) (rest : List ColorSpec)
    (hpre : yPrefix cfg = Except.ok pre)
    (hw : 0 < (effectiveGrid g cfg).width)
    (ho : (effectiveGrid g cfg).height % 2 = 1) :
    print g cfg =
      ((pairChunksAux (effectiveGrid g cfg) cfg pre 0 ((effectiveGrid g cfg).height / 2)).1 ++
        [(pairChunksAux (effectiveGrid g cfg) cfg pre 0 ((effectiveGrid g cfg).height / 2)).2 ++
          fill_out_buffer (topSpecsRow (effectiveGrid g cfg) cfg
            ((effectiveGrid g cfg).height - 1)) true],
       Except.ok ()) ∧
    (fill_out_buffer (c :: rest) true =
      (match c.bg with
       | some bg => [Op.setColor { fg := some bg, bg := none }, Op.write UPPER_HALF_BLOCK]
       | none => [Op.moveRight 1]) ++ fill_out_buffer rest true) ∧
    Op.write LOWER_HALF_BLOCK ∉ fill_out_buffer (c :: rest) true := by
  refine ⟨?_, ?_, lower_never_in_last_row (c :: rest)⟩
  · simp only [print, printS, hpre]
    rw [renderLoop_spec _ cfg pre hw]
    simp [renderChunks, ho]
  · rcases c with ⟨fg, bg⟩
    cases bg <;> rfl

/-- C9 amended: against a healthy sink a render delivers exactly one chunk per
row pair, each holding that pair's completed cells (background from the top
pixel, foreground from the bottom pixel) exactly once, followed by the final
flush, which is empty except that the unpaired last row of an odd-height grid
is carried there in last-row mode with only its background halves
populated. -/
theorem cells_flushed_once_amended (g : Grid) (cfg : Config) (pre : List Op)
    (hpre : yPrefix cfg = Except.ok pre)
    (hw : 0 < (effectiveGrid g cfg).width) :
    print g cfg = (renderChunks (effectiveGrid g cfg) cfg pre, Except.ok ()) := by
  simp only [print, printS, hpre]
  exact renderLoop_spec _ cfg pre hw

theorem cells_flushed_once_amended_witness :
    (yPrefix cfg0 = Except.ok [] ∧ 0 < (effectiveGrid grid1 cfg0).width) ∧
    print grid1 cfg0 = (renderChunks (effectiveGrid grid1 cfg0) cfg0 [], Except.ok ()) :=
  ⟨⟨rfl, by decide⟩, cells_flushed_once_amended grid1 cfg0 [] rfl (by decide)⟩

/-- C9 fails as stated on the code: rendering the 1x1 opaque grid (odd
height), the single cell is created with only its background half populated
(there is no bottom pixel), yet its glyph write reaches the sink in the final
chunk. -/
theorem partial_cell_counterexample : ¬ completedCellsOnlyClaim := by
  intro hcl
  exact hcl grid1 cfg0 [] rfl (by decide) (by decide) UPPER_HALF_BLOCK (by decide)

theorem odd_height_last_row_witness :
    (yPrefix cfg0 = Except.ok [] ∧ 0 < (effectiveGrid grid1 cfg0).width ∧
      (effectiveGrid grid1 cfg0).height % 2 = 1) ∧
    (print grid1 cfg0 =
      ((pairChunksAux (effectiveGrid grid1 cfg0) cfg0 [] 0
          ((effectiveGrid grid1 cfg0).height / 2)).1 ++
        [(pairChunksAux (effectiveGrid grid1 cfg0) cfg0 [] 0
            ((effectiveGrid grid1 cfg0).height / 2)).2 ++
          fill_out_buffer (topSpecsRow (effectiveGrid grid1 cfg0) cfg0
            ((effectiveGrid grid1 cfg0).height - 1)) true],
       Except.ok ()) ∧
     (fill_out_buffer (spec1 :: []) true =
       (match spec1.bg with
        | some bg => [Op.setColor { fg := some bg, bg := none }, Op.write UPPER_HALF_BLOCK]
        | none => [Op.moveRight 1]) ++ fill_out_buffer [] true) ∧
     Op.write LOWER_HALF_BLOCK ∉ fill_out_buffer (spec1 :: []) true) :=
  ⟨⟨rfl, by decide, by decide⟩,
    odd_height_last_row grid1 cfg0 [] spec1 [] rfl (by decide) (by decide)⟩

/-! ### Config congruence and C10 -/

theorem pixelColor_congr (c1 c2 : Config) (ht : c1.transparent = c2.transparent)
    (htc : c1.truecolor = c2.truecolor) : pixelColor c1 = pixelColor c2 := by
  funext r c px
  simp only [pixelColor, ht, htc]

theorem flushRow_cfg_congr (c1 c2 : Config) (resp : Nat → Option IOError)
    (hx : c1.x = c2.x) : flushRow c1 resp = flushRow c2 resp := by
  funext st rb
  simp only [flushRow, xOffsetOps, hx]

theorem stepPixel_cfg_congr (c1 c2 : Config) (w : Nat) (resp : Nat → Option IOError)
    (hx : c1.x = c2.x) (ht : c1.transparent = c2.transparent)
    (htc : c1.truecolor = c2.truecolor) :
    stepPixel c1 w resp = stepPixel c2 w resp := by
  funext st px
  simp only [stepPixel, pixelColor_congr c1 c2 ht htc, flushRow_cfg_congr c1 c2 resp hx]

theorem renderLoop_cfg_congr (g : Grid) (c1 c2 : Config) (resp : Nat → Option IOError)
    (pre : List Op) (hx : c1.x = c2.x) (ht : c1.transparent = c2.transparent)
    (htc : c1.truecolor = c2.truecolor) :
    renderLoop g c1 resp pre = renderLoop g c2 resp pre := by
  simp only [renderLoop, stepPixel_cfg_congr c1 c2 g.width resp hx ht htc]

/-- C10: the resizer runs only when config.resize is set: with resize unset the
pixel loop is run on the original grid itself, and the config's width/height
fields have no effect on the render. -/
theorem resize_flag_gates_resizer (g : Grid) (cfg : Config)
    (resp : Nat → Option IOError) (w1 h1 w2 h2 : Option Nat) (pre : List Op)
    (hres : cfg.resize = false) (hpre : yPrefix cfg = Except.ok pre) :
    printS g { cfg with width := w1, height := h1 } resp =
      printS g { cfg with width := w2, height := h2 } resp ∧
    printS g cfg resp = renderLoop g cfg resp pre := by
  have hpre1 : yPrefix { cfg with width := w1, height := h1 } = Except.ok pre := hpre
  have hpre2 : yPrefix { cfg with width := w2, height := h2 } = Except.ok pre := hpre
  have heg : effectiveGrid g cfg = g := by simp [effectiveGrid, hres]
  have heg1 : effectiveGrid g { cfg with width := w1, height := h1 } = g := by
    simp [effectiveGrid, hres]
  have heg2 : effectiveGrid g { cfg with width := w2, height := h2 } = g := by
    simp [effectiveGrid, hres]
  constructor
  · simp only [printS, hpre1, hpre2, heg1, heg2]
    exact renderLoop_cfg_congr g _ _ resp pre rfl rfl rfl
  · simp only [printS, hpre, heg]

theorem resize_flag_gates_resizer_witness :
    (cfg0.resize = false ∧ yPrefix cfg0 = Except.ok []) ∧
    (printS grid1 { cfg0 with width := some 3, height := some 4 } allOk =
       printS grid1 { cfg0 with width := none, height := some 9 } allOk ∧
     printS grid1 cfg0 allOk = renderLoop grid1 cfg0 allOk []) :=
  ⟨⟨rfl, rfl⟩,
    resize_flag_gates_resizer grid1 cfg0 allOk (some 3) (some 4) none (some 9) [] rfl rfl⟩

/-! ### Sink failure handling and C5 -/

theorem flushRow_ok_bp (cfg : Config) (resp : Nat → Option IOError) (st : LoopSt)
    (rb : List ColorSpec) (e : IOError) (h : resp st.flushIdx = some e)
    (hk : e.kind = IOErrorKind.brokenPipe) :
    flushRow cfg resp st rb = Except.ok
      { currCol := 0, currRow := st.currRow + 1, mode := Mode.top, rowBuffer := [],
        outBuffer := st.outBuffer ++ xOffsetOps cfg ++ fill_out_buffer rb false,
        chunks := st.chunks, flushIdx := st.flushIdx + 1 } := by
  simp [flushRow, print_buffer, h, hk]

theorem flushRow_err (cfg : Config) (resp : Nat → Option IOError) (st : LoopSt)
    (rb : List ColorSpec) (e : IOError) (h : resp st.flushIdx = some e)
    (hk : e.kind ≠ IOErrorKind.brokenPipe) :
    flushRow cfg resp st rb = Except.error (st.chunks, ViuError.ioError e) := by
  rcases e with ⟨k⟩
  cases k <;> first
    | exact absurd rfl hk
    | simp [flushRow, print_buffer, h]

theorem stepPixel_no_error (cfg : Config) (w : Nat) (resp : Nat → Option IOError)
    (st : LoopSt) (px : Nat × Nat × Rgba)
    (h : ∀ e, resp st.flushIdx = some e → e.kind = IOErrorKind.brokenPipe) :
    ∃ st1, stepPixel cfg w resp st px = Except.ok st1 := by
  simp only [stepPixel]
  split
  · split
    · exact ⟨_, rfl⟩
    · exact ⟨_, rfl⟩
  · split
    · split
      · cases hr : resp st.flushIdx with
        | none => exact ⟨_, flushRow_ok_none cfg resp st _ hr⟩
        | some e => exact ⟨_, flushRow_ok_bp cfg resp st _ e hr (h e hr)⟩
      · exact ⟨_, rfl⟩
    · exact ⟨_, rfl⟩

theorem foldlM_ok_of_resp_bp (cfg : Config) (w : Nat) (resp : Nat → Option IOError)
    (hresp : ∀ k e, resp k = some e → e.kind = IOErrorKind.brokenPipe) :
    ∀ (ps : List (Nat × Nat × Rgba)) (st : LoopSt),
      ∃ st1, List.foldlM (stepPixel cfg w resp) st ps = Except.ok st1 := by
  intro ps
  induction ps with
  | nil => intro st; exact ⟨st, rfl⟩
  | cons p tail ih =>
    intro st
    obtain ⟨st2, h2⟩ := stepPixel_no_error cfg w resp st p (fun e he => hresp _ e he)
    obtain ⟨st1, h1⟩ := ih st2
    exact ⟨st1, by rw [foldlM_cons_ex, h2, ok_bind, h1]⟩

theorem stepPixel_const_err (cfg : Config) (w : Nat) (e : IOError)
    (hk : e.kind ≠ IOErrorKind.brokenPipe) (st : LoopSt) (px : Nat × Nat × Rgba) :
    (∃ st2, stepPixel cfg w (fun _ => some e) st px = Except.ok st2) ∨
    stepPixel cfg w (fun _ => some e) st px =
      Except.error (st.chunks, ViuError.ioError e) := by
  simp only [stepPixel]
  split
  · split
    · exact Or.inl ⟨_, rfl⟩
    · exact Or.inl ⟨_, rfl⟩
  · split
    · split
      · exact Or.inr (flushRow_err cfg (fun _ => some e) st _ e rfl hk)
      · exact Or.inl ⟨_, rfl⟩
    · exact Or.inl ⟨_, rfl⟩

theorem foldlM_dichotomy (cfg : Config) (w : Nat) (e : IOError)
    (hk : e.kind ≠ IOErrorKind.brokenPipe) :
    ∀ (ps : List (Nat × Nat × Rgba)) (st : LoopSt),
      (∃ st1, List.foldlM (stepPixel cfg w (fun _ => some e)) st ps = Except.ok st1) ∨
      (∃ cs, List.foldlM (stepPixel cfg w (fun _ => some e)) st ps =
        Except.error (cs, ViuError.ioError e)) := by
  intro ps
  induction ps with
  | nil => intro st; exact Or.inl ⟨st, rfl⟩
  | cons p tail ih =>
    intro st
    rcases stepPixel_const_err cfg w e hk st p with ⟨st2, h2⟩ | h2
    · rcases ih st2 with ⟨st1, h1⟩ | ⟨cs, h1⟩
      · exact Or.inl ⟨st1, by rw [foldlM_cons_ex, h2, ok_bind, h1]⟩
      · exact Or.inr ⟨cs, by rw [foldlM_cons_ex, h2, ok_bind, h1]⟩
    · exact Or.inr ⟨st.chunks, by rw [foldlM_cons_ex, h2, error_bind]⟩

theorem yPrefix_ok_of (cfg : Config) (h : cfg.absolute_offset = true → 0 ≤ cfg.y) :
    ∃ pre, yPrefix cfg = Except.ok pre := by
  unfold yPrefix
  split_ifs with h1 h2 h3
  · exact ⟨_, rfl⟩
  · exact absurd (h h1) h2
  · exact ⟨_, rfl⟩
  · exact ⟨_, rfl⟩

/-- C5: a broken-pipe failure of a flush is swallowed: print_buffer returns Ok
on a broken pipe and an IO error on every other failure kind, a whole render
against a sink whose failures are all broken pipes still returns Ok, and a
render against a sink failing with any other kind returns that IO error. -/
theorem broken_pipe_suppressed :
    (∀ (cs : List (List Op)) (ob : List Op) (e : IOError),
      e.kind = IOErrorKind.brokenPipe →
        print_buffer (some e) cs ob = Except.ok (cs, ob)) ∧
    (∀ (cs : List (List Op)) (ob : List Op) (e : IOError),
      e.kind ≠ IOErrorKind.brokenPipe →
        print_buffer (some e) cs ob = Except.error (ViuError.ioError e)) ∧
    (∀ (g : Grid) (cfg : Config) (resp : Nat → Option IOError),
      (∀ k e, resp k = some e → e.kind = IOErrorKind.brokenPipe) →
      (cfg.absolute_offset = true → 0 ≤ cfg.y) →
      (printS g cfg resp).2 = Except.ok ()) ∧
    (∀ (g : Grid) (cfg : Config) (e : IOError), e.kind ≠ IOErrorKind.brokenPipe →
      (cfg.absolute_offset = true → 0 ≤ cfg.y) →
      (printS g cfg (fun _ => some e)).2 = Except.error (ViuError.ioError e)) := by
  refine ⟨?_, ?_, ?_, ?_⟩
  · intro cs ob e hk
    simp [print_buffer, hk]
  · intro cs ob e hk
    rcases e with ⟨k⟩
    cases k <;> first
      | exact absurd rfl hk
      | simp [print_buffer]
  · intro g cfg resp hresp hcfg
    obtain ⟨pre, hpre⟩ := yPrefix_ok_of cfg hcfg
    obtain ⟨st1, h1⟩ := foldlM_ok_of_resp_bp cfg (effectiveGrid g cfg).width resp hresp
      (gridPixels (effectiveGrid g cfg)) ⟨0, 0, Mode.top, [], pre, [], 0⟩
    cases hie : st1.rowBuffer.isEmpty with
    | true =>
      cases hr : resp st1.flushIdx with
      | none => simp [printS, hpre, renderLoop, h1, hie, print_buffer, hr]
      | some e2 =>
        simp [printS, hpre, renderLoop, h1, hie, print_buffer, hr, hresp _ e2 hr]
    | false =>
      cases hr : resp st1.flushIdx with
      | none => simp [printS, hpre, renderLoop, h1, hie, print_buffer, hr]
      | some e2 =>
        simp [printS, hpre, renderLoop, h1, hie, print_buffer, hr, hresp _ e2 hr]
  · intro g cfg e hk hcfg
    obtain ⟨pre, hpre⟩ := yPrefix_ok_of cfg hcfg
    have hpb : ∀ (cs : List (List Op)) (ob : List Op),
        print_buffer (some e) cs ob = Except.error (ViuError.ioError e) := by
      intro cs ob
      rcases e with ⟨k⟩
      cases k <;> first
        | exact absurd rfl hk
        | simp [print_buffer]
    rcases foldlM_dichotomy cfg (effectiveGrid g cfg).width e hk
      (gridPixels (effectiveGrid g cfg)) ⟨0, 0, Mode.top, [], pre, [], 0⟩ with
      ⟨st1, h1⟩ | ⟨cs, h1⟩
    · cases hie : st1.rowBuffer.isEmpty with
      | true => simp [printS, hpre, renderLoop, h1, hie, hpb]
      | false => simp [printS, hpre, renderLoop, h1, hie, hpb]
    · simp [printS, hpre, renderLoop, h1]

theorem broken_pipe_suppressed_witness :
    print_buffer (some eBP) [] [Op.newline] = Except.ok ([], [Op.newline]) ∧
    print_buffer (some eNF) [] [] = Except.error (ViuError.ioError eNF) ∧
    (printS grid1 cfg0 respBP).2 = Except.ok () ∧
    (printS grid1 cfg0 respNF).2 = Except.error (ViuError.ioError eNF) :=
  ⟨broken_pipe_suppressed.1 [] [Op.newline] eBP rfl,
   broken_pipe_suppressed.2.1 [] [] eNF (by decide),
   broken_pipe_suppressed.2.2.1 grid1 cfg0 respBP
     (fun _ e he => by injection he with h2; rw [← h2]; rfl) (by decide),
   broken_pipe_suppressed.2.2.2 grid1 cfg0 eNF (by decide) (by decide)⟩
